import Mathlib

/-!
Verification of the signal-normalization and statistical-testing pipeline of the
steel-flow-analysis repository (`src/utils/helpers.py`, `src/analysis/normalization.py`,
`src/analysis/statistics.py`, `src/analysis/composite.py`).

Modelling conventions:
* A pandas `Series` is a date-ordered list of optional rationals; `none` models NaN
  (missing data).  Alignment of two series on a shared date index is modelled
  positionally.
* Floating-point numbers are modelled as rationals.  Division by zero (which produces
  `inf` or NaN in pandas) is modelled as `none`; the claims settled here never
  distinguish `inf` from NaN.
* Quantities whose source value is a square root (standard deviations, Pearson
  correlations, t statistics, Sharpe ratios) are represented either by their squares
  (together with their sign) or through `ratSqrtOpt`, the exact rational square root;
  each such encoding is documented at the definition it affects.  The encodings are
  faithful because `x ↦ x²` is injective on nonnegative reals.
-/

namespace SteelFlow

/-- A pandas Series: ordered values of a single ticker, `none` = NaN. -/
abbrev Series := List (Option ℚ)

/-- Value of a series at integer position `i` (`none` when out of range). -/
def getN (s : Series) (i : ℕ) : Option ℚ := s.getD i none

/-- Sum of a list of rationals. -/
def qsum (l : List ℚ) : ℚ := l.sum

/-- Arithmetic mean (pandas `.mean()` on a non-empty series). -/
def qmean (l : List ℚ) : ℚ := qsum l / l.length

/-- pandas `.mean()` : NaN on an empty series. -/
def meanOpt (l : List ℚ) : Option ℚ := if l.length = 0 then none else some (qmean l)

/-- Sum of squared deviations from the mean. -/
def sumCenteredSq (l : List ℚ) : ℚ := qsum (l.map (fun x => (x - qmean l) ^ 2))

/-- pandas sample variance (`ddof=1`): NaN with fewer than two observations. -/
def sampleVarOpt (l : List ℚ) : Option ℚ :=
  if l.length < 2 then none else some (sumCenteredSq l / ((l.length : ℚ) - 1))

/-- Division lifted to optional values; a zero denominator yields `none`
(pandas would produce `inf`/NaN; no claim distinguishes the two). -/
def divOpt (a b : Option ℚ) : Option ℚ :=
  match a, b with
  | some x, some y => if y = 0 then none else some (x / y)
  | _, _ => none

/-- Addition lifted to optional values (NaN propagates). -/
def addOpt (a b : Option ℚ) : Option ℚ :=
  match a, b with
  | some x, some y => some (x + y)
  | _, _ => none

/-- Sign-preserving square, used to encode square-root-valued quantities:
`signedSq ((x-μ)/σ)` determines `(x-μ)/σ` uniquely. -/
def signedSq (a : ℚ) : ℚ := if a < 0 then -(a ^ 2) else a ^ 2

/-- Exact rational square root: `some r` iff `r ≥ 0` and `r * r = q`.
Used to represent real square roots inside ℚ; every claim proved through it
only evaluates it where the root is exact. -/
def ratSqrtOpt (q : ℚ) : Option ℚ :=
  if Rat.sqrt q * Rat.sqrt q = q then some (Rat.sqrt q) else none

/-- The trailing window of (up to) `w` observations ending at position `i`
(pandas `rolling(window=w)` at row `i`). -/
def windowAt (s : Series) (w i : ℕ) : Series := (s.take (i + 1)).drop (i + 1 - w)

/-- The non-null observations of a window. -/
def obs (win : Series) : List ℚ := win.filterMap id

/-- pandas `rolling(w, min_periods=m).mean()` at position `i`. -/
def rollingMeanAt (s : Series) (w m i : ℕ) : Option ℚ :=
  let xs := obs (windowAt s w i)
  if xs.length < m ∨ xs.length = 0 then none else some (qmean xs)

/-- pandas `rolling(w, min_periods=m).var()` (`ddof=1`) at position `i`;
the square of the code's rolling standard deviation. -/
def rollingVarAt (s : Series) (w m i : ℕ) : Option ℚ :=
  let xs := obs (windowAt s w i)
  if xs.length < m ∨ xs.length < 2 then none
  else some (sumCenteredSq xs / ((xs.length : ℚ) - 1))

/-- Forward fill (pandas `fillna(method='pad')`), with `last` the value carried in. -/
def ffillFrom (last : Option ℚ) : Series → Series
  | [] => []
  | x :: t =>
    match x with
    | none => last :: ffillFrom last t
    | some a => some a :: ffillFrom (some a) t

/-- pandas `.ffill()`. -/
def ffill (s : Series) : Series := ffillFrom none s

/-- Model of `helpers.py` line 21 / `composite.py` line 91: `prices.pct_change(h)`.
pandas forward-fills the series (default `fill_method='pad'`) and computes
`filled[t] / filled[t-h] - 1`; the first `h` positions are NaN. -/
def pct_change (s : Series) (h : ℕ) : Series :=
  let f := ffill s
  (List.range s.length).map (fun i =>
    if i < h then none else (divOpt (getN f i) (getN f (i - h))).map (· - 1))

/-- pandas `.shift(-h)`: pull each value `h` positions earlier; the final `h`
positions become NaN. -/
def shiftNeg (s : Series) (h : ℕ) : Series :=
  (List.range s.length).map (fun i => getN s (i + h))

/-- Model of `helpers.py` `calculate_forward_returns` for a single horizon:
`prices.pct_change(h).shift(-h)`. -/
def forwardReturn (prices : Series) (h : ℕ) : Series := shiftNeg (pct_change prices h) h

/-- Model of `helpers.py` lines 165-181, `calculate_forward_returns`: one column
`fwd_return_{h}d` per requested horizon. -/
def calculate_forward_returns (prices : Series) (horizons : List ℕ) : List (ℕ × Series) :=
  horizons.map (fun h => (h, forwardReturn prices h))

/-- Constant from `config/config.py` line 48. -/
def ADV_WINDOW : ℕ := 20

/-- Constant from `config/config.py` line 49. -/
def ZSCORE_WINDOW : ℕ := 252

/-- Constant from `config/config.py` line 50. -/
def PERCENTILE_WINDOW : ℕ := 756

/-- Constant from `config/config.py` line 53 (`SIGNIFICANCE_LEVEL = 0.05`). -/
def SIGNIFICANCE_LEVEL : ℚ := 1 / 20

/-- Constant from `config/config.py` line 54. -/
def MIN_SAMPLE_SIZE : ℕ := 30

/-- Model of `helpers.py` lines 129-143, `calculate_zscore`:
`(series - rolling_mean) / rolling_std` with `min_periods = window // 2`.
Encoding: since the rolling standard deviation is an (irrational) square root,
the entry stores the signed square of the z-score,
`signedSq ((x-μ)/σ) = sign(x-μ)·(x-μ)²/var`; nullness and sign are exactly those
of the code.  A zero-variance window yields `none` (the code computes `0/0 = NaN`
there: the current observation belongs to its own window, so `σ = 0` forces
`x = μ`). -/
def calculate_zscore (s : Series) (window : ℕ) : Series :=
  (List.range s.length).map (fun i =>
    match getN s i, rollingMeanAt s window (window / 2) i,
          rollingVarAt s window (window / 2) i with
    | some x, some mu, some v =>
        if v = 0 then none else some (signedSq (x - mu) / v)
    | _, _, _ => none)

/-- Model of `scipy.stats.percentileofscore(a, score)` (default `kind='rank'`):
`(left + right + (1 if right > left else 0)) * 50 / len(a)` where
`left = #(a < score)`, `right = #(a ≤ score)`.  Null entries of `a`
compare as False (NaN semantics) but still count in `len(a)`. -/
def percentileofscore (a : Series) (score : ℚ) : ℚ :=
  let left := (a.filter (fun o => match o with | some v => decide (v < score) | none => false)).length
  let right := (a.filter (fun o => match o with | some v => decide (v ≤ score) | none => false)).length
  ((left + right + (if left < right then 1 else 0) : ℕ) : ℚ) * 50 / a.length

/-- Model of `helpers.py` lines 157-160, the window function `percentile_rank`:
NaN for windows shorter than 2, else the percentile of the current value
within the preceding window values (`x[:-1]`). -/
def percentile_rank (win : Series) : Option ℚ :=
  if win.length < 2 then none
  else
    match win.getLast? with
    | some (some sc) => some (percentileofscore win.dropLast sc)
    | _ => none

/-- Model of `helpers.py` lines 146-162, `calculate_percentile`: rolling apply of
`percentile_rank` with `min_periods = window // 2` (windows with fewer
non-null observations yield NaN). -/
def calculate_percentile (s : Series) (window : ℕ) : Series :=
  (List.range s.length).map (fun i =>
    let win := windowAt s window i
    if (obs win).length < window / 2 then none else percentile_rank win)

/-- Model of `normalization.py` line 36: estimated share volume `net_buy_value / close`. -/
def estVolume (net_buy_value close : Series) : Series :=
  List.zipWith divOpt net_buy_value close

/-- Model of `normalization.py` line 39: rolling mean of `volume.abs()` with
`min_periods = window//2` — the ADV rolling mean of claim C5. -/
def adv_rolling_mean (net_buy_value close : Series) (window : ℕ) : Series :=
  let volume := estVolume net_buy_value close
  (List.range volume.length).map
    (rollingMeanAt (volume.map (Option.map (|·|))) window (window / 2))

/-- Model of `normalization.py` lines 19-44, `normalize_by_adv`: `volume / avg_volume`. -/
def normalize_by_adv (net_buy_value close : Series) (window : ℕ) : Series :=
  List.zipWith divOpt (estVolume net_buy_value close)
    (adv_rolling_mean net_buy_value close window)

/-- Model of `normalization.py` lines 47-68, `normalize_by_gtgd`:
`net_buy_value / (buy_value + sell_value)` with a zero total replaced by NaN. -/
def normalize_by_gtgd (net_buy_value buy_value sell_value : Series) : Series :=
  List.zipWith divOpt net_buy_value (List.zipWith addOpt buy_value sell_value)

/-- Insertion of a value into a sorted list of rationals. -/
def insertSorted (x : ℚ) : List ℚ → List ℚ
  | [] => [x]
  | y :: t => if x ≤ y then x :: y :: t else y :: insertSorted x t

/-- Ascending sort (numpy sorts the data before taking quantiles). -/
def sortQ (l : List ℚ) : List ℚ := l.foldr insertSorted []

/-- numpy linear-interpolation quantile of sorted data at level `q`:
`h = (n-1)·q`, `a[⌊h⌋] + (h - ⌊h⌋)·(a[⌊h⌋+1] - a[⌊h⌋])`. -/
def quantileAt (sorted : List ℚ) (q : ℚ) : ℚ :=
  let h : ℚ := ((sorted.length : ℚ) - 1) * q
  let lo : ℕ := h.floor.toNat
  let frac : ℚ := h - (lo : ℚ)
  sorted.getD lo 0 + frac * (sorted.getD (lo + 1) (sorted.getD lo 0) - sorted.getD lo 0)

/-- The `nGroups + 1` quantile edges used by `pd.qcut(x, nGroups)`. -/
def quantileEdges (clean : List ℚ) (nGroups : ℕ) : List ℚ :=
  (List.range (nGroups + 1)).map (fun j => quantileAt (sortQ clean) ((j : ℚ) / nGroups))

/-- Bin assignment of `pd.cut`'s `_bins_to_cuts` with `right=True`,
`include_lowest=True`: value `v` falls in the first interval `(e_{j-1}, e_j]`
with `v ≤ e_j` (the bottom edge itself joins the first bin); values beyond the
last edge get NaN. -/
def binOf (edges : List ℚ) (labels : List String) (v : ℚ) : Option String :=
  ((edges.drop 1).zip labels).findSome?
    (fun p => if v ≤ p.1 then some p.2 else none)

/-- Model of `pd.qcut(clean, nGroups, labels, duplicates='drop')`: `none` models the
`ValueError` raised when dropping duplicate edges leaves a number of bins
different from the number of labels; otherwise the per-value bin assignment. -/
def qcutAssign (clean : List ℚ) (nGroups : ℕ) (labels : List String) :
    Option (ℚ → Option String) :=
  let edges := (quantileEdges clean nGroups).dedup
  if edges.length = labels.length + 1 then some (binOf edges labels) else none

/-- pandas `rank(pct=True)` (average method) of value `v` within `clean`:
average rank `(#(< v) + 1 + #(≤ v))/2`, divided by the population size. -/
def rankPct (clean : List ℚ) (v : ℚ) : ℚ :=
  let lt := (clean.filter (fun x => decide (x < v))).length
  let le := (clean.filter (fun x => decide (x ≤ v))).length
  (((lt : ℚ) + 1 + le) / 2) / clean.length

/-- Edges of `pd.cut(x, bins=nGroups)` with scalar bin count: `nGroups`
equal-width intervals over `[min x, max x]`, the lowest edge nudged down by
0.1% of the range so the minimum is included (both edges nudged when the
range is degenerate). -/
def cutEdges (xs : List ℚ) (nGroups : ℕ) : List ℚ :=
  let mn := xs.foldr min (xs.headD 0)
  let mx := xs.foldr max (xs.headD 0)
  if mn = mx then
    let mn' := if mn = 0 then mn - 1/1000 else mn - |mn| / 1000
    let mx' := if mx = 0 then mx + 1/1000 else mx + |mx| / 1000
    (List.range (nGroups + 1)).map (fun j => mn' + (j : ℚ) * (mx' - mn') / nGroups)
  else
    (List.range (nGroups + 1)).map (fun j =>
      (if j = 0 then mn - (mx - mn) / 1000 else mn) + (j : ℚ) * (mx - mn) / nGroups)

/-- The default labels of `helpers.py` `create_quintiles`. -/
def defaultQuintileLabels : List String := ["Q1", "Q2", "Q3", "Q4", "Q5"]

/-- The fallback branch of `create_quintiles` (lines 61-63): groups from
percentile ranks (`rank(pct=True)`) cut into `n` equal-width buckets. -/
def rankFallbackAssign (clean : List ℚ) (nGroups : ℕ) (labels : List String)
    (v : ℚ) : Option String :=
  binOf (cutEdges (clean.map (rankPct clean)) nGroups) labels (rankPct clean v)

/-- Model of `helpers.py` lines 38-66, `create_quintiles`: drop NaN, try
`pd.qcut(..., duplicates='drop')`, fall back to percentile-rank bucketing
when that raises, then reindex to the original series (NaN stays NaN). -/
def create_quintiles (s : Series) (labels : List String := defaultQuintileLabels) :
    List (Option String) :=
  let clean := s.filterMap id
  if clean.length = 0 then s.map (fun _ => none)
  else
    match qcutAssign clean 5 labels with
    | some assign => s.map (fun o => o.bind assign)
    | none => s.map (fun o => o.bind (rankFallbackAssign clean 5 labels))

/-- Row-wise alignment of two series followed by
`pd.DataFrame({...}).dropna()`: the rows where both values are present. -/
def pairClean (xs ys : Series) : List (ℚ × ℚ) :=
  (xs.zip ys).filterMap (fun p =>
    match p with
    | (some x, some y) => some (x, y)
    | _ => none)

/-- Numerator of the Pearson correlation: `Σ (x-μx)(y-μy)`. -/
def pearsonNum (ps : List (ℚ × ℚ)) : ℚ :=
  let xs := ps.map Prod.fst
  let ys := ps.map Prod.snd
  qsum (ps.map (fun p => (p.1 - qmean xs) * (p.2 - qmean ys)))

/-- Square of the Pearson denominator: `(Σ(x-μx)²)·(Σ(y-μy)²)`. -/
def pearsonDenSq (ps : List (ℚ × ℚ)) : ℚ :=
  sumCenteredSq (ps.map Prod.fst) * sumCenteredSq (ps.map Prod.snd)

/-- Model of `scipy.stats.pearsonr`: the correlation value.  `none` both for the NaN the code
produces on constant input (zero denominator) and — a limitation of the ℚ
embedding — when the denominator's square root is irrational; every claim
evaluated through this definition stays in the exact fragment. -/
def pearsonOpt (ps : List (ℚ × ℚ)) : Option ℚ :=
  if pearsonDenSq ps = 0 then none
  else (ratSqrtOpt (pearsonDenSq ps)).map (fun d => pearsonNum ps / d)

/-- pandas average ranks (`method='average'`) of each entry within the list. -/
def rankAvg (l : List ℚ) : List ℚ :=
  l.map (fun v =>
    (((l.filter (fun x => decide (x < v))).length : ℚ) + 1 +
      ((l.filter (fun x => decide (x ≤ v))).length : ℚ)) / 2)

/-- Spearman correlation: Pearson correlation of the average ranks. -/
def spearmanOpt (ps : List (ℚ × ℚ)) : Option ℚ :=
  pearsonOpt ((rankAvg (ps.map Prod.fst)).zip (rankAvg (ps.map Prod.snd)))

/-- The `method` argument of `calculate_information_coefficient`. -/
inductive ICMethod where
  | pearson
  | spearman
deriving DecidableEq, Repr

/-- The warning strings of `statistics.py`. -/
inductive StatWarning where
  | insufficientData
  | smallSample (n : ℕ)
deriving DecidableEq, Repr

/-- Result of `statistics.py` `calculate_information_coefficient` (lines
195-233).  The p-value and the `significant` flag are a fixed function of the
correlation and `n` through the t distribution and are not rational-valued;
they are therefore not carried here, and no claim below evaluates them. -/
structure ICResult where
  ic : Option ℚ
  n : ℕ
  warning : Option StatWarning
deriving DecidableEq, Repr

/-- Model of `statistics.py` lines 195-233, `calculate_information_coefficient`:
drop unpaired rows; with fewer than 2 rows return the null result with an
insufficient-data warning (and `n = 0`); otherwise the selected correlation,
the sample size and a small-sample warning below `MIN_SAMPLE_SIZE`. -/
def calculate_information_coefficient (signal forward_return : Series)
    (method : ICMethod := .pearson) : ICResult :=
  let ps := pairClean signal forward_return
  if ps.length < 2 then
    { ic := none, n := 0, warning := some .insufficientData }
  else
    { ic := match method with
            | .pearson => pearsonOpt ps
            | .spearman => spearmanOpt ps
      n := ps.length
      warning := if ps.length < MIN_SAMPLE_SIZE then some (.smallSample ps.length) else none }

/-- The spec's derived IC t statistic `ic·sqrt((n-2)/(1-ic²))`, in the signed
square encoding; `none` models the infinite value at `|ic| = 1` (zero
denominator). -/
def ic_t_stat_enc (ic : ℚ) (n : ℕ) : Option ℚ :=
  if 1 - ic ^ 2 = 0 then none else some (signedSq ic * ((n : ℚ) - 2) / (1 - ic ^ 2))

/-- The populated result of `ttest_two_groups`.  The Welch t statistic
`(m1-m2)/sqrt(v1/n1+v2/n2)` is carried as numerator `tNum` and squared
denominator `tDenSq`; `dfW` is the Welch–Satterthwaite degrees of freedom.
The two-sided p-value is a fixed function of `tNum²/tDenSq` and `dfW` and is
not rational-valued, so it is not carried. -/
structure TTestRecord where
  tNum : ℚ
  tDenSq : ℚ
  dfW : ℚ
  n1 : ℕ
  n2 : ℕ
  mean1 : ℚ
  mean2 : ℚ
  mean_diff : ℚ
  smallSampleWarning : Bool
deriving DecidableEq, Repr

/-- Result of `ttest_two_groups`: either the insufficient-sample null record
or the populated one. -/
inductive TTestResult where
  | insufficient (n1 n2 : ℕ)
  | ok (r : TTestRecord)
deriving DecidableEq, Repr

/-- Mean of the non-null observations of a group (`g.dropna().mean()`). -/
def cleanMean (g : Series) : ℚ := qmean (g.filterMap id)

/-- Sample variance (`ddof=1`) of the non-null observations of a group. -/
def cleanVar (g : Series) : ℚ :=
  sumCenteredSq (g.filterMap id) / (((g.filterMap id).length : ℚ) - 1)

/-- The per-group Welch term `var / n`. -/
def welchSE (g : Series) : ℚ := cleanVar g / ((g.filterMap id).length : ℚ)

/-- Model of `statistics.py` lines 19-70, `ttest_two_groups` with the default
`equal_var=False` (Welch: `t = (m1-m2)/sqrt(v1/n1+v2/n2)`). -/
def ttest_two_groups (group1 group2 : Series) : TTestResult :=
  let c1 := group1.filterMap id
  let c2 := group2.filterMap id
  if c1.length < 2 ∨ c2.length < 2 then .insufficient c1.length c2.length
  else
    .ok { tNum := cleanMean group1 - cleanMean group2
          tDenSq := welchSE group1 + welchSE group2
          dfW := (welchSE group1 + welchSE group2) ^ 2
            / (welchSE group1 ^ 2 / ((c1.length : ℚ) - 1)
              + welchSE group2 ^ 2 / ((c2.length : ℚ) - 1))
          n1 := c1.length
          n2 := c2.length
          mean1 := cleanMean group1
          mean2 := cleanMean group2
          mean_diff := cleanMean group1 - cleanMean group2
          smallSampleWarning := c1.length < MIN_SAMPLE_SIZE ∨ c2.length < MIN_SAMPLE_SIZE }

/-- One per-lag row of `granger_causality_test`.  The correlation is carried
as `corrNum / sqrt(corrDenSq)` (see `pearsonOpt`); the p-value is a fixed
function of the correlation and `n` and is not carried. -/
structure GrangerRow where
  lag : ℕ
  corrNum : ℚ
  corrDenSq : ℚ
  n : ℕ
deriving DecidableEq, Repr

/-- Result of `granger_causality_test`: the single insufficient-data
placeholder row, or the per-lag rows. -/
inductive GrangerResult where
  | insufficientData
  | rows (l : List GrangerRow)
deriving DecidableEq, Repr

/-- The aligned sample at a given lag: `x` shifted down by `lag` inside the
already-cleaned pair table, nulls dropped (`statistics.py` lines 174-177);
since the table holds no nulls this keeps rows `lag..len-1`. -/
def laggedPairs (ps : List (ℚ × ℚ)) (lag : ℕ) : List (ℚ × ℚ) :=
  (ps.map Prod.fst).zip ((ps.map Prod.snd).drop lag)

/-- Model of `statistics.py` lines 146-192, `granger_causality_test`: short-circuit to
the placeholder when the paired sample has fewer than `max_lag + 20` rows;
otherwise one row per lag `1..max_lag`, silently skipping lags whose aligned
sample is shorter than 20. -/
def granger_causality_test (x y : Series) (max_lag : ℕ := 10) : GrangerResult :=
  let ps := pairClean x y
  if ps.length < max_lag + 20 then .insufficientData
  else .rows ((List.range max_lag).filterMap (fun k =>
    let lag := k + 1
    let lp := laggedPairs ps lag
    if lp.length < 20 then none
    else some { lag := lag, corrNum := pearsonNum lp, corrDenSq := pearsonDenSq lp,
                n := lp.length }))

/-- Sample covariance (pandas `.cov()`, `ddof=1`). -/
def sampleCov (ps : List (ℚ × ℚ)) : ℚ := pearsonNum ps / ((ps.length : ℚ) - 1)

/-- The populated result of `capm_analysis` — exactly the four entries of the
returned dictionary (`composite.py` lines 173-178): the annualized alpha, the
beta, the annualized mean strategy return and the sample size. -/
structure CapmRecord where
  alpha : ℚ
  beta : ℚ
  mean_return : ℚ
  sample_size : ℕ
deriving DecidableEq, Repr

/-- Result of `capm_analysis`. -/
inductive CapmResult where
  | insufficientData
  | ok (r : CapmRecord)
deriving DecidableEq, Repr

/-- The intermediate `beta` of `capm_analysis` (`composite.py` lines 156-160):
`cov / var` of the cleaned pairs, 0 when the market variance is zero. -/
def capm_beta (stock_returns market_returns : Series) : ℚ :=
  let ps := pairClean stock_returns market_returns
  let mvar := sumCenteredSq (ps.map Prod.snd) / ((ps.length : ℚ) - 1)
  if mvar ≠ 0 then sampleCov ps / mvar else 0

/-- The intermediate per-period alpha of `capm_analysis` (`composite.py`
line 166): `mean_stock - beta * mean_market`. -/
def capm_alpha_raw (stock_returns market_returns : Series) : ℚ :=
  let ps := pairClean stock_returns market_returns
  qmean (ps.map Prod.fst) - capm_beta stock_returns market_returns * qmean (ps.map Prod.snd)

/-- Model of `composite.py` lines 136-178, `capm_analysis`: align and drop nulls,
require 10 paired observations, `beta = cov/var` (0 on zero market variance),
`alpha = mean_stock - beta*mean_market`, annualize by 252.  The returned
dictionary holds exactly the annualized alpha, the beta, the annualized mean
return and the sample size. -/
def capm_analysis (stock_returns market_returns : Series) : CapmResult :=
  let ps := pairClean stock_returns market_returns
  if ps.length < 10 then .insufficientData
  else
    .ok { alpha := capm_alpha_raw stock_returns market_returns * 252
          beta := capm_beta stock_returns market_returns
          mean_return := qmean (ps.map Prod.fst) * 252
          sample_size := ps.length }

/-- A per-ticker merged DataFrame.  `n` is the number of rows (dates); each
column is either absent (`none`, the column-not-in-df case) or a series.
Only the columns read or written by the composite-scoring pipeline are
carried. -/
structure Panel where
  n : ℕ
  foreign_net_buy_val : Option Series := none
  self_net_buy_val : Option Series := none
  self_buy_val : Option Series := none
  self_sell_val : Option Series := none
  close : Option Series := none
  pe : Option Series := none
  pb : Option Series := none
  pcfs : Option Series := none
  foreign_signal_adv20 : Option Series := none
  self_signal_adv20 : Option Series := none
  self_signal_gtgd : Option Series := none
  foreign_zscore : Option Series := none
  self_zscore : Option Series := none
  pe_percentile : Option Series := none
  pb_percentile : Option Series := none
  pcfs_percentile : Option Series := none
  composite_score : Option Series := none
deriving Repr

/-- Model of `normalization.py` lines 71-97, `calculate_foreign_signals`: when both the
foreign net-buy and the close columns exist, add the ADV signal and the
252-session z-score of the raw foreign net-buy value. -/
def calculate_foreign_signals (p : Panel) (window : ℕ := ADV_WINDOW) : Panel :=
  match p.foreign_net_buy_val, p.close with
  | some fnb, some cl =>
      { p with foreign_signal_adv20 := some (normalize_by_adv fnb cl window),
               foreign_zscore := some (calculate_zscore fnb ZSCORE_WINDOW) }
  | _, _ => p

/-- Model of `normalization.py` lines 100-140, `calculate_self_signals`: ADV signal
(needs close), GTGD signal (needs buy and sell values), and the z-score of the
raw self net-buy value. -/
def calculate_self_signals (p : Panel) (window : ℕ := ADV_WINDOW) : Panel :=
  let p1 :=
    match p.self_net_buy_val, p.close with
    | some snb, some cl =>
        { p with self_signal_adv20 := some (normalize_by_adv snb cl window) }
    | _, _ => p
  let p2 :=
    match p1.self_net_buy_val, p1.self_buy_val, p1.self_sell_val with
    | some snb, some bv, some sv =>
        { p1 with self_signal_gtgd := some (normalize_by_gtgd snb bv sv) }
    | _, _, _ => p1
  match p2.self_net_buy_val with
  | some snb => { p2 with self_zscore := some (calculate_zscore snb ZSCORE_WINDOW) }
  | none => p2

/-- Model of `normalization.py` lines 143-166, `calculate_valuation_percentiles`. -/
def calculate_valuation_percentiles (p : Panel) (window : ℕ := PERCENTILE_WINDOW) : Panel :=
  let p1 :=
    match p.pe with
    | some pe => { p with pe_percentile := some (calculate_percentile pe window) }
    | none => p
  let p2 :=
    match p1.pb with
    | some pb => { p1 with pb_percentile := some (calculate_percentile pb window) }
    | none => p1
  match p2.pcfs with
  | some pc => { p2 with pcfs_percentile := some (calculate_percentile pc window) }
  | none => p2

/-- Model of `normalization.py` lines 169-190, `normalize_all_signals`. -/
def normalize_all_signals (p : Panel) : Panel :=
  calculate_valuation_percentiles (calculate_self_signals (calculate_foreign_signals p))

/-- The composite score of one row (`composite.py` lines 38-62): the foreign
z-score with NaN→0 (0 when the column is absent), plus the self z-score with
NaN→0 when requested and present, minus the average over the present PE/PB
percentile columns of `fillna(50)/100`. -/
def compositeAt (p : Panel) (use_self_trading : Bool) (i : ℕ) : ℚ :=
  let zF : ℚ :=
    match p.foreign_zscore with
    | some c => (getN c i).getD 0
    | none => 0
  let zS : ℚ :=
    match p.self_zscore with
    | some c => if use_self_trading then (getN c i).getD 0 else 0
    | none => 0
  let peT : ℚ :=
    match p.pe_percentile with
    | some c => ((getN c i).getD 50) / 100
    | none => 0
  let pbT : ℚ :=
    match p.pb_percentile with
    | some c => ((getN c i).getD 50) / 100
    | none => 0
  let val_count : ℕ :=
    (if p.pe_percentile.isSome then 1 else 0) + (if p.pb_percentile.isSome then 1 else 0)
  zF + zS - (if 0 < val_count then (peT + pbT) / (val_count : ℚ) else 0)

/-- Model of `composite.py` lines 18-66, `build_composite_score`: recompute all signals,
then attach the combined `composite_score` column. -/
def build_composite_score (p : Panel) (use_self_trading : Bool := true) : Panel :=
  let q := normalize_all_signals p
  let col : Series := (List.range p.n).map (fun i => some (compositeAt q use_self_trading i))
  { q with composite_score := some col }

/-- Modelled from the spec: the combination step of `build_composite_score` as
claim C1 words it, with EVERY missing component — the valuation percentiles
included — filled with 0 instead of the code's neutral 50. -/
def compositeAt_spec (p : Panel) (use_self_trading : Bool) (i : ℕ) : ℚ :=
  let zF : ℚ :=
    match p.foreign_zscore with
    | some c => (getN c i).getD 0
    | none => 0
  let zS : ℚ :=
    match p.self_zscore with
    | some c => if use_self_trading then (getN c i).getD 0 else 0
    | none => 0
  let peT : ℚ :=
    match p.pe_percentile with
    | some c => ((getN c i).getD 0) / 100
    | none => 0
  let pbT : ℚ :=
    match p.pb_percentile with
    | some c => ((getN c i).getD 0) / 100
    | none => 0
  let val_count : ℕ :=
    (if p.pe_percentile.isSome then 1 else 0) + (if p.pb_percentile.isSome then 1 else 0)
  zF + zS - (if 0 < val_count then (peT + pbT) / (val_count : ℚ) else 0)

/-- The claim-side variant of `build_composite_score` (missing signals filled
with 0), to be compared with the code's behaviour. -/
def build_composite_score_spec (p : Panel) (use_self_trading : Bool := true) : Panel :=
  let q := normalize_all_signals p
  let col : Series := (List.range p.n).map (fun i => some (compositeAt_spec q use_self_trading i))
  { q with composite_score := some col }

/-- The quintile column of the backtest (`composite.py` line 87). -/
def btQuintiles (p : Panel) : List (Option String) :=
  create_quintiles (p.composite_score.getD [])

/-- The forward-return column of the backtest (`composite.py` lines 90-91):
only computable when the close column exists. -/
def btFwdReturns (p : Panel) (horizon : ℕ) : Option Series :=
  (p.close).map (fun cl => forwardReturn cl horizon)

/-- Model of `df[df[QUINTILE] == label][fwd_ret_col].dropna()` over the panel's rows. -/
def btGroupReturns (p : Panel) (horizon : ℕ) (label : String) : List ℚ :=
  (List.range p.n).filterMap (fun i =>
    if (btQuintiles p).getD i none = some label then
      getN ((btFwdReturns p horizon).getD []) i
    else none)

/-- The populated result of `quintile_backtest` (`composite.py` lines
125-131).  `strategy_stdSq` is the square of the code's
`strategy_returns_std = sqrt(std_Q5² + std_Q1²)/sqrt(2)`; `sharpe_enc` is the
signed square of the code's Sharpe ratio (`none` = NaN).  The per-quintile
aggregation table is omitted: no claim reads it. -/
structure BacktestRecord where
  strategy_mean : Option ℚ
  strategy_stdSq : Option ℚ
  sharpe_enc : Option ℚ
  sample_size : ℕ
deriving DecidableEq, Repr

/-- Result of `quintile_backtest`, including its two error dictionaries. -/
inductive BacktestResult where
  | errNoComposite
  | errNoReturns
  | ok (r : BacktestRecord)
deriving DecidableEq, Repr

/-- The Sharpe computation of `quintile_backtest` (`composite.py` lines
118-123), in the signed-square encoding: NaN spread volatility propagates,
a non-positive volatility yields NaN, else
`sharpe = (mean·ppy)/(std·sqrt(ppy))`, encoded as
`sign(sharpe)·sharpe² = signedSq(mean·ppy)/(stdSq·ppy)`. -/
def sharpeEncOf (stdSq m : Option ℚ) (ppy : ℕ) : Option ℚ :=
  match stdSq, m with
  | some s, some mv =>
      if 0 < s then some (signedSq (mv * ppy) / (s * ppy)) else none
  | _, _ => none

/-- Model of `composite.py` lines 69-133, `quintile_backtest`: quintile the composite
score, compute the forward return for the horizon, and report the Q5-Q1
long-short mean, pooled volatility and annualized Sharpe
(`periods_per_year = 252 // horizon`; NaN Sharpe when the volatility is not
positive). -/
def quintile_backtest (p : Panel) (horizon : ℕ := 5) : BacktestResult :=
  if p.composite_score.isNone then .errNoComposite
  else if p.close.isNone then .errNoReturns
  else
    let q5 := btGroupReturns p horizon ("Q5")
    let q1 := btGroupReturns p horizon ("Q1")
    let meanOpt5 := meanOpt q5
    let meanOpt1 := meanOpt q1
    let var5 := sampleVarOpt q5
    let var1 := sampleVarOpt q1
    let m : Option ℚ :=
      match meanOpt5, meanOpt1 with
      | some a, some b => some (a - b)
      | _, _ => none
    let stdSq : Option ℚ :=
      match var5, var1 with
      | some a, some b => some ((a + b) / 2)
      | _, _ => none
    let sharpe : Option ℚ := sharpeEncOf stdSq m (252 / horizon)
    .ok { strategy_mean := m
          strategy_stdSq := stdSq
          sharpe_enc := sharpe
          sample_size := ((List.range p.n).filter (fun i =>
            (getN (p.composite_score.getD []) i).isSome ∧
            (getN ((btFwdReturns p horizon).getD []) i).isSome)).length }

/-- Modelled from the spec: the square of claim C2's long-short volatility
formula `sqrt((std_Q5² + std_Q1²)/2)/sqrt(2)`, i.e. `(var5 + var1)/4`, to be
compared with the code's `strategy_stdSq`. -/
def strategy_stdSq_spec (p : Panel) (horizon : ℕ) : Option ℚ :=
  match sampleVarOpt (btGroupReturns p horizon ("Q5")),
        sampleVarOpt (btGroupReturns p horizon ("Q1")) with
  | some a, some b => some ((a + b) / 4)
  | _, _ => none

/-! Concrete inputs used by witnesses and counterexamples. -/

/-- A one-row panel whose only column is a null PE percentile. -/
def panelPeOnly : Panel := { n := 1, pe_percentile := some [none] }

/-- A small panel with raw inputs, exercising the full scoring pipeline. -/
def panelSmall : Panel :=
  { n := 3
    foreign_net_buy_val := some [some 5, none, some (-2)]
    close := some [some 10, some 10, some 10]
    pe := some [some 12, some 14, some 11] }

/-- 20-row composite scores: the four largest values sit in rows 0-3, the four
smallest in rows 4-7, so Q5 and Q1 have forward returns available. -/
def compositeCol20 : Series :=
  ([16, 17, 18, 19] ++ [0, 1, 2, 3] ++ (List.range 12).map (fun i => ((i : ℚ) + 4))).map some

/-- 20 closing prices, all 1 except a 2 in row 5. -/
def closeCol20 : Series := (List.range 20).map (fun i => if i = 5 then some 2 else some 1)

/-- The concrete backtest panel built from the two columns above. -/
def panelBacktest : Panel := { n := 20, composite_score := some compositeCol20, close := some closeCol20 }

/-- A constant four-observation series (`[1, 1, 1, 1]`). -/
def constSeries4 : Series := [some 1, some 1, some 1, some 1]

/-- A strictly increasing four-observation series (`[1, 2, 4, 8]`). -/
def growthSeries4 : Series := [some 1, some 2, some 4, some 8]

/-- A constant two-observation series (`[1, 1]`). -/
def constSeries2 : Series := [some 1, some 1]

/-- A 25-observation series `0..24`, long enough for the lag scan. -/
def longSeries25 : Series := (List.range 25).map (fun i => some ((i : ℚ)))

/-- Market returns `1..10`. -/
def marketReturns10 : Series := (List.range 10).map (fun i => some ((i : ℚ) + 1))

/-- Strategy returns `market + 3`. -/
def stockReturns10 : Series := (List.range 10).map (fun i => some ((i : ℚ) + 4))

/-! Helper lemmas about the series primitives. -/

theorem getN_map_range (f : ℕ → Option ℚ) (n i : ℕ) (h : i < n) :
    getN ((List.range n).map f) i = f i := by
  simp [getN, List.getD_eq_getElem?_getD, List.getElem?_map, List.getElem?_range, h]

theorem getN_eq_none_of_le (s : Series) (i : ℕ) (h : s.length ≤ i) :
    getN s i = none := by
  simp [getN, List.getD_eq_getElem?_getD, List.getElem?_eq_none h]

theorem length_map_range (f : ℕ → Option ℚ) (n : ℕ) :
    (((List.range n).map f : Series)).length = n := by
  simp

theorem ffillFrom_getN_some (s : Series) :
    ∀ (last : Option ℚ) (i : ℕ) (p : ℚ),
      getN s i = some p → getN (ffillFrom last s) i = some p := by
  induction s with
  | nil => intro last i p h; simp [getN] at h
  | cons x t ih =>
      intro last i p h
      cases i with
      | zero =>
          cases x with
          | none => simp [getN] at h
          | some a =>
              simp [getN] at h
              simp [ffillFrom, getN, h]
      | succ j =>
          have h2 : getN t j = some p := by
            simpa [getN, List.getD_cons_succ] using h
          cases x with
          | none =>
              have h3 := ih last j p h2
              simpa [ffillFrom, getN, List.getD_cons_succ] using h3
          | some a =>
              have h3 := ih (some a) j p h2
              simpa [ffillFrom, getN, List.getD_cons_succ] using h3

theorem pct_change_length (s : Series) (h : ℕ) : (pct_change s h).length = s.length := by
  simp [pct_change]

/-- Claim C3: for every price series and horizon `h`, the forward return at `t`
is exactly `prices[t+h]/prices[t] - 1` whenever both prices exist (and the
base price is nonzero, so that the ratio is a finite number), and is null at
the last `h` positions of the series. -/
theorem forward_return_consistency (prices : Series) (h t : ℕ) :
    (∀ p q : ℚ, t + h < prices.length →
      getN prices t = some p → getN prices (t + h) = some q → p ≠ 0 →
      getN (forwardReturn prices h) t = some (q / p - 1))
    ∧ (prices.length ≤ t + h → t < prices.length →
      getN (forwardReturn prices h) t = none) := by
  constructor
  · intro p q hlt hp hq hpz
    have ht : t < prices.length := by omega
    have ht2 : t < (pct_change prices h).length := by rw [pct_change_length]; exact ht
    have h1 : getN (forwardReturn prices h) t = getN (pct_change prices h) (t + h) := by
      simpa [forwardReturn, shiftNeg] using
        getN_map_range (fun i => getN (pct_change prices h) (i + h))
          (pct_change prices h).length t ht2
    have hnh : ¬ (t + h < h) := by omega
    have h2 : getN (pct_change prices h) (t + h)
        = (divOpt (getN (ffill prices) (t + h)) (getN (ffill prices) t)).map (· - 1) := by
      have hmr := getN_map_range
        (fun i => if i < h then none
          else (divOpt (getN (ffill prices) i) (getN (ffill prices) (i - h))).map (· - 1))
        prices.length (t + h) hlt
      rw [show pct_change prices h = (List.range prices.length).map
        (fun i => if i < h then none
          else (divOpt (getN (ffill prices) i) (getN (ffill prices) (i - h))).map (· - 1))
        from rfl]
      rw [hmr]
      simp [hnh, Nat.add_sub_cancel]
    have hfp : getN (ffill prices) t = some p := ffillFrom_getN_some prices none t p hp
    have hfq : getN (ffill prices) (t + h) = some q := ffillFrom_getN_some prices none (t + h) q hq
    rw [h1, h2, hfp, hfq]
    simp [divOpt, hpz]
  · intro hge ht
    have ht2 : t < (pct_change prices h).length := by rw [pct_change_length]; exact ht
    have h1 : getN (forwardReturn prices h) t = getN (pct_change prices h) (t + h) := by
      simpa [forwardReturn, shiftNeg] using
        getN_map_range (fun i => getN (pct_change prices h) (i + h))
          (pct_change prices h).length t ht2
    rw [h1]
    exact getN_eq_none_of_le _ _ (by simpa [pct_change_length] using hge)

/-- Claim C3 witness at `prices = [1, 2, 4]`, `h = 1`. -/
theorem forward_return_consistency_witness :
    getN (forwardReturn [some 1, some 2, some 4] 1) 0 = some 1
    ∧ getN (forwardReturn [some 1, some 2, some 4] 1) 2 = none := by
  refine ⟨?_, ?_⟩
  · have hc := (forward_return_consistency [some 1, some 2, some 4] 1 0).1
      1 2 (by decide) (by decide) (by decide) (by decide)
    have h21 : (2 : ℚ) / 1 - 1 = 1 := by norm_num
    rw [h21] at hc
    exact hc
  · exact (forward_return_consistency [some 1, some 2, some 4] 1 2).2 (by decide) (by decide)

theorem getD_map_bind_none (s : Series) (f : Option ℚ → Option String) (i : ℕ)
    (hf : f none = none) (h : getN s i = none) : (s.map f).getD i none = none := by
  rw [List.getD_eq_getElem?_getD, List.getElem?_map]
  rcases hsi : s[i]? with _ | o
  · simp
  · have : o = none := by
      rw [getN, List.getD_eq_getElem?_getD, hsi] at h
      simpa using h
    simp [this, hf]

/-- Claim C4: quantile binning always produces an assignment of the same
length as its input (no exception escapes: the `pd.qcut` failure case —
`qcutAssign = none`, the model of the duplicate-edge `ValueError` — is caught
and answered by percentile-rank bucketing), null inputs keep a null group,
and the assignment is a pure function of the input (deterministic). -/
theorem quantile_binning_total (s : Series) (labels : List String) :
    (create_quintiles s labels).length = s.length
    ∧ (∀ i, getN s i = none → (create_quintiles s labels).getD i none = none)
    ∧ (0 < (s.filterMap id).length → qcutAssign (s.filterMap id) 5 labels = none →
        create_quintiles s labels
          = s.map (fun o => o.bind (rankFallbackAssign (s.filterMap id) 5 labels)))
    ∧ create_quintiles s labels = create_quintiles s labels := by
  refine ⟨?_, ?_, ?_, rfl⟩
  · rw [create_quintiles]
    split
    · simp
    · split <;> simp
  · intro i hnone
    rw [create_quintiles]
    split
    · exact getD_map_bind_none s _ i rfl hnone
    · split
      · exact getD_map_bind_none s _ i rfl hnone
      · exact getD_map_bind_none s _ i rfl hnone
  · intro hpos hfail
    rw [create_quintiles]
    split
    · omega
    · split
      · rename_i h1
        rw [hfail] at h1
        exact absurd h1 (by simp)
      · rfl

/-- Claim C4 witness: a series with a null, with duplicate values forcing the
fallback, still yields a full-length assignment with the null preserved. -/
theorem quantile_binning_total_witness :
    (create_quintiles [some 1, none, some 1, some 1, some 2, some 3, some 4]
        defaultQuintileLabels).length = 7
    ∧ (create_quintiles [some 1, none, some 1, some 1, some 2, some 3, some 4]
        defaultQuintileLabels).getD 1 none = none := by
  refine ⟨?_, ?_⟩
  · have := (quantile_binning_total
      [some 1, none, some 1, some 1, some 2, some 3, some 4] defaultQuintileLabels).1
    simpa using this
  · exact (quantile_binning_total
      [some 1, none, some 1, some 1, some 2, some 3, some 4] defaultQuintileLabels).2.1
      1 (by decide)

/-! Window lemmas for the rolling computations. -/

/-- All observations of the trailing window are present (no NaN). -/
abbrev populatedAt (s : Series) (w i : ℕ) : Prop := ∀ v ∈ windowAt s w i, v ≠ none

theorem windowAt_length_le (s : Series) (w i : ℕ) : (windowAt s w i).length ≤ i + 1 := by
  simp only [windowAt, List.length_drop, List.length_take]
  omega

theorem windowAt_length_eq (s : Series) (w i : ℕ) (h : i < s.length) :
    (windowAt s w i).length = min w (i + 1) := by
  simp only [windowAt, List.length_drop, List.length_take]
  omega

theorem obs_length_le (win : Series) : (obs win).length ≤ win.length :=
  List.length_filterMap_le _ _

theorem obs_length_eq (win : Series) (h : ∀ v ∈ win, v ≠ none) :
    (obs win).length = win.length := by
  induction win with
  | nil => rfl
  | cons x t ih =>
      cases x with
      | none => exact absurd rfl (h none (by simp))
      | some a =>
          have ht := ih (fun v hv => h v (List.mem_cons_of_mem _ hv))
          simp [obs, List.filterMap_cons] at ht ⊢
          exact ht

theorem windowAt_last_getElem (s : Series) (w i : ℕ) (hi : i < s.length) (hw : 0 < w) :
    (windowAt s w i)[(windowAt s w i).length - 1]? = some (getN s i) := by
  show ((s.take (i + 1)).drop (i + 1 - w))[((s.take (i + 1)).drop (i + 1 - w)).length - 1]?
      = some (getN s i)
  rw [List.getElem?_drop]
  have hidx : i + 1 - w + (((s.take (i + 1)).drop (i + 1 - w)).length - 1) = i := by
    simp only [List.length_drop, List.length_take]
    omega
  rw [hidx, List.getElem?_take, if_pos (by omega)]
  simp [getN, List.getD_eq_getElem?_getD, List.getElem?_eq_getElem hi]

theorem windowAt_getLast (s : Series) (w i : ℕ) (hi : i < s.length) (hw : 0 < w) :
    (windowAt s w i).getLast? = some (getN s i) := by
  rw [List.getLast?_eq_getElem?]
  exact windowAt_last_getElem s w i hi hw

theorem getN_mem_windowAt (s : Series) (w i : ℕ) (hi : i < s.length) (hw : 0 < w) :
    getN s i ∈ windowAt s w i := by
  have h1 := windowAt_last_getElem s w i hi hw
  rw [← List.get?_eq_getElem?] at h1
  exact List.get?_mem h1

theorem windowAt_map (l : Series) (f : Option ℚ → Option ℚ) (w i : ℕ) :
    windowAt (l.map f) w i = (windowAt l w i).map f := by
  simp [windowAt, List.map_take, List.map_drop]

theorem rollingMeanAt_none_of_small (s : Series) (w m i : ℕ) (h : i + 1 < m) :
    rollingMeanAt s w m i = none := by
  have h1 : (obs (windowAt s w i)).length < m :=
    lt_of_le_of_lt (le_trans (obs_length_le _) (windowAt_length_le s w i)) h
  simp only [rollingMeanAt]
  rw [if_pos (Or.inl h1)]

theorem rollingMeanAt_isSome (s : Series) (w m i : ℕ) (hi : i < s.length)
    (hw : 0 < w) (hmw : m ≤ w) (hm : m ≤ i + 1) (hpop : populatedAt s w i) :
    (rollingMeanAt s w m i).isSome := by
  have hlen : (obs (windowAt s w i)).length = min w (i + 1) := by
    rw [obs_length_eq _ hpop, windowAt_length_eq s w i hi]
  simp only [rollingMeanAt]
  rw [if_neg ?_]
  · rfl
  · rw [hlen]
    omega

theorem rollingVarAt_none_of_small (s : Series) (w m i : ℕ) (h : i + 1 < m) :
    rollingVarAt s w m i = none := by
  have h1 : (obs (windowAt s w i)).length < m :=
    lt_of_le_of_lt (le_trans (obs_length_le _) (windowAt_length_le s w i)) h
  simp only [rollingVarAt]
  rw [if_pos (Or.inl h1)]

theorem calculate_zscore_length (s : Series) (w : ℕ) :
    (calculate_zscore s w).length = s.length := by
  simp [calculate_zscore]

theorem calculate_percentile_length (s : Series) (w : ℕ) :
    (calculate_percentile s w).length = s.length := by
  simp [calculate_percentile]

theorem adv_rolling_mean_length (net close : Series) (w : ℕ) :
    (adv_rolling_mean net close w).length = (estVolume net close).length := by
  simp [adv_rolling_mean]

/-- Claim C5, counterexample: a constant, fully populated series.  At position
1 of `[1,1,1,1]` with window 4 (`min_periods = 2`) the window is fully
populated and lies at/after position `w//2 - 1`, yet the rolling z-score is
null (`(x - mean)/std = 0/0 = NaN` on a zero-variance window), contradicting
"non-null at every position at or beyond that point whenever the underlying
window is fully populated". -/
theorem rolling_warmup_cex :
    (∀ v ∈ windowAt constSeries4 4 1, v ≠ none)
    ∧ 4 / 2 ≤ 1 + 1
    ∧ 1 < constSeries4.length
    ∧ getN (calculate_zscore constSeries4 4) 1 = none := by
  with_unfolding_all decide

/-- Claim C5 as amended: every rolling computation (z-score, percentile rank,
ADV rolling mean) is null at the first `window//2 - 1` positions
(`i + 1 < w/2`); at or beyond that point, on a fully populated window, the ADV
rolling mean is non-null, the z-score is non-null provided the window also has
at least 2 observations with nonzero variance (a constant window gives NaN,
see the counterexample), and the percentile rank is non-null provided the
window also has at least 2 observations. -/
theorem rolling_warmup_amended (s net close : Series) (w i : ℕ) (hw : 0 < w) :
    (i + 1 < w / 2 →
      getN (calculate_zscore s w) i = none
      ∧ getN (calculate_percentile s w) i = none
      ∧ getN (adv_rolling_mean net close w) i = none)
    ∧ (i < s.length → populatedAt s w i →
        ∀ v, rollingVarAt s w (w / 2) i = some v → v ≠ 0 →
          (getN (calculate_zscore s w) i).isSome)
    ∧ (i < s.length → populatedAt s w i → w / 2 ≤ i + 1 →
        2 ≤ (windowAt s w i).length →
          (getN (calculate_percentile s w) i).isSome)
    ∧ (i < (estVolume net close).length → populatedAt (estVolume net close) w i →
        w / 2 ≤ i + 1 →
          (getN (adv_rolling_mean net close w) i).isSome) := by
  refine ⟨?_, ?_, ?_, ?_⟩
  · intro hsmall
    refine ⟨?_, ?_, ?_⟩
    · by_cases hi : i < s.length
      · rw [calculate_zscore, getN_map_range _ _ _ hi,
          rollingMeanAt_none_of_small s w (w / 2) i hsmall]
        rcases getN s i with _ | x <;> rcases rollingVarAt s w (w / 2) i with _ | v <;> rfl
      · exact getN_eq_none_of_le _ _ (by simpa [calculate_zscore_length] using Nat.le_of_not_lt hi)
    · by_cases hi : i < s.length
      · rw [calculate_percentile, getN_map_range _ _ _ hi]
        have hcount : (obs (windowAt s w i)).length < w / 2 :=
          lt_of_le_of_lt (le_trans (obs_length_le _) (windowAt_length_le s w i)) hsmall
        simp only [hcount, if_pos]
      · exact getN_eq_none_of_le _ _
          (by simpa [calculate_percentile_length] using Nat.le_of_not_lt hi)
    · by_cases hi : i < (estVolume net close).length
      · rw [adv_rolling_mean, getN_map_range _ _ _ hi]
        exact rollingMeanAt_none_of_small _ w (w / 2) i hsmall
      · exact getN_eq_none_of_le _ _
          (by simpa [adv_rolling_mean_length] using Nat.le_of_not_lt hi)
  · intro hi hpop v hv hvz
    rw [calculate_zscore, getN_map_range _ _ _ hi]
    have hcount : (obs (windowAt s w i)).length = min w (i + 1) := by
      rw [obs_length_eq _ hpop, windowAt_length_eq s w i hi]
    have hge : ¬ ((obs (windowAt s w i)).length < w / 2
        ∨ (obs (windowAt s w i)).length < 2) := by
      intro hcon
      rw [rollingVarAt] at hv
      simp only [hcon, if_pos] at hv
      exact Option.noConfusion hv
    have hmean : (rollingMeanAt s w (w / 2) i).isSome := by
      rw [rollingMeanAt]
      rw [if_neg (by omega)]
      rfl
    obtain ⟨mu, hmu⟩ := Option.isSome_iff_exists.mp hmean
    have hx : ∃ xv, getN s i = some xv := by
      have hmem := getN_mem_windowAt s w i hi hw
      have hne := hpop _ hmem
      rcases hgx : getN s i with _ | xv
      · rw [hgx] at hne hmem
        exact absurd rfl hne
      · exact ⟨xv, rfl⟩
    obtain ⟨xv, hxv⟩ := hx
    rw [hxv, hmu, hv]
    simp [hvz]
  · intro hi hpop hhalf h2
    rw [calculate_percentile, getN_map_range _ _ _ hi]
    have hcount : (obs (windowAt s w i)).length = (windowAt s w i).length :=
      obs_length_eq _ hpop
    have hminw : (windowAt s w i).length = min w (i + 1) := windowAt_length_eq s w i hi
    rw [if_neg (by omega)]
    rw [percentile_rank, if_neg (by omega), windowAt_getLast s w i hi hw]
    have hmem := getN_mem_windowAt s w i hi hw
    have hne := hpop _ hmem
    rcases hgx : getN s i with _ | sc
    · exact absurd hgx hne
    · rfl
  · intro hi hpop hhalf
    rw [adv_rolling_mean, getN_map_range _ _ _ hi]
    have hpop2 : populatedAt ((estVolume net close).map (Option.map (|·|))) w i := by
      intro v hv
      rw [windowAt_map] at hv
      obtain ⟨u, hu, huv⟩ := List.mem_map.mp hv
      have := hpop u hu
      rcases u with _ | uv
      · exact absurd rfl this
      · rw [← huv]
        simp
    exact rollingMeanAt_isSome _ w (w / 2) i (by simpa using hi) hw
      (Nat.div_le_self w 2) hhalf hpop2

/-- Claim C5 witness: series `[1,2,4,8]`, window 4, position 1 (at the
`w//2 - 1` boundary, populated, nonconstant): all three rolling computations
are non-null there, and all three are null at position 0. -/
theorem rolling_warmup_amended_witness :
    ((getN (calculate_zscore growthSeries4 4) 1).isSome
      ∧ (getN (calculate_percentile growthSeries4 4) 1).isSome
      ∧ (getN (adv_rolling_mean growthSeries4 constSeries4 4) 1).isSome)
    ∧ (getN (calculate_zscore growthSeries4 4) 0 = none
      ∧ (getN (calculate_percentile growthSeries4 4) 0 = none
      ∧ getN (adv_rolling_mean growthSeries4 constSeries4 4) 0 = none)) := by
  constructor
  · refine ⟨?_, ?_, ?_⟩
    · exact (rolling_warmup_amended growthSeries4 growthSeries4 constSeries4 4 1
        (by decide)).2.1 (by decide) (by with_unfolding_all decide) (1/2)
        (by with_unfolding_all decide) (by with_unfolding_all decide)
    · exact (rolling_warmup_amended growthSeries4 growthSeries4 constSeries4 4 1
        (by decide)).2.2.1 (by decide) (by with_unfolding_all decide) (by decide) (by decide)
    · exact (rolling_warmup_amended growthSeries4 growthSeries4 constSeries4 4 1
        (by decide)).2.2.2 (by with_unfolding_all decide) (by with_unfolding_all decide)
        (by decide)
  · exact (rolling_warmup_amended growthSeries4 growthSeries4 constSeries4 4 0
      (by decide)).1 (by decide)

/-! Lemmas for the Information Coefficient. -/

theorem ratSqrtOpt_mul_self (a : ℚ) (ha : 0 ≤ a) : ratSqrtOpt (a * a) = some a := by
  rw [ratSqrtOpt, Rat.sqrt_eq, abs_of_nonneg ha, if_pos rfl]

theorem sumCenteredSq_nonneg (l : List ℚ) : 0 ≤ sumCenteredSq l := by
  apply List.sum_nonneg
  intro x hx
  obtain ⟨y, hy, rfl⟩ := List.mem_map.mp hx
  positivity

theorem pairClean_self (s : Series) :
    pairClean s s = (s.filterMap id).map (fun x => (x, x)) := by
  induction s with
  | nil => rfl
  | cons o t ih =>
      cases o with
      | none => simpa [pairClean, List.filterMap_cons] using ih
      | some x => simpa [pairClean, List.filterMap_cons] using ih

theorem map_fst_pair_self (clean : List ℚ) :
    List.map Prod.fst (List.map (fun x : ℚ => (x, x)) clean) = clean := by
  rw [List.map_map]
  exact List.map_id clean

theorem map_snd_pair_self (clean : List ℚ) :
    List.map Prod.snd (List.map (fun x : ℚ => (x, x)) clean) = clean := by
  rw [List.map_map]
  exact List.map_id clean

theorem pearsonNum_self (clean : List ℚ) :
    pearsonNum (clean.map (fun x => (x, x))) = sumCenteredSq clean := by
  simp only [pearsonNum]
  rw [map_fst_pair_self, map_snd_pair_self, sumCenteredSq, qsum, qsum, List.map_map]
  congr 1
  apply List.map_congr_left
  intro x hx
  simp [pow_two]

theorem pearsonDenSq_self (clean : List ℚ) :
    pearsonDenSq (clean.map (fun x => (x, x)))
      = sumCenteredSq clean * sumCenteredSq clean := by
  simp only [pearsonDenSq, map_fst_pair_self, map_snd_pair_self]

theorem pearsonOpt_self (clean : List ℚ) (hA : sumCenteredSq clean ≠ 0) :
    pearsonOpt (clean.map (fun x => (x, x))) = some 1 := by
  rw [pearsonOpt, pearsonDenSq_self, pearsonNum_self]
  rw [if_neg (mul_ne_zero hA hA), ratSqrtOpt_mul_self _ (sumCenteredSq_nonneg clean)]
  simp [div_self hA]

/-- Claim C6, counterexample: a constant signal correlated with itself.  For
`signal = [1, 1]` (two paired observations, so the n ≥ 2 guard passes) the
Pearson denominator is zero and `information_coefficient(signal, signal)`
returns NaN, not IC = 1.0. -/
theorem information_coefficient_cex :
    (pairClean constSeries2 constSeries2).length = 2
    ∧ (calculate_information_coefficient constSeries2 constSeries2 .pearson).ic = none
    ∧ (calculate_information_coefficient constSeries2 constSeries2 .pearson).ic ≠ some 1 := by
  with_unfolding_all decide

/-- Claim C6 as amended: with fewer than 2 paired observations the IC
computation returns the null result (`ic` NaN, `n = 0`) with the
insufficient-data warning instead of raising; and for a *nonconstant* signal
with itself (the aligned sample has nonzero squared deviation — a constant
signal yields NaN, see the counterexample) the IC is exactly 1.0 and the
spec's derived t statistic `ic·sqrt((n-2)/(1-ic²))` is infinite (`none`: its
denominator vanishes at `|ic| = 1`).  The code returns no t-statistic field;
the t statistic is the stated function of `ic` and `n`. -/
theorem information_coefficient_amended :
    (∀ (sig fr : Series) (m : ICMethod), (pairClean sig fr).length < 2 →
      calculate_information_coefficient sig fr m
        = { ic := none, n := 0, warning := some .insufficientData })
    ∧ (∀ sig : Series, 2 ≤ (pairClean sig sig).length →
        sumCenteredSq (sig.filterMap id) ≠ 0 →
        (calculate_information_coefficient sig sig .pearson).ic = some 1
        ∧ ic_t_stat_enc 1 (calculate_information_coefficient sig sig .pearson).n = none) := by
  constructor
  · intro sig fr m hlt
    rw [calculate_information_coefficient.eq_def, if_pos hlt]
  · intro sig hge hA
    have h1 : calculate_information_coefficient sig sig .pearson
        = { ic := pearsonOpt (pairClean sig sig)
            n := (pairClean sig sig).length
            warning := if (pairClean sig sig).length < MIN_SAMPLE_SIZE
              then some (.smallSample (pairClean sig sig).length) else none } := by
      rw [calculate_information_coefficient.eq_def, if_neg (by omega)]
    rw [h1]
    refine ⟨?_, ?_⟩
    · rw [pairClean_self, pearsonOpt_self _ hA]
    · rw [ic_t_stat_enc, if_pos (by norm_num)]

/-- Claim C6 witness: the insufficient-data branch at one overlapping row, and
IC = 1.0 with an infinite t statistic for the nonconstant series `[1,2,4,8]`
against itself. -/
theorem information_coefficient_witness :
    calculate_information_coefficient [some 1, none] [none, some 2] .spearman
      = { ic := none, n := 0, warning := some .insufficientData }
    ∧ (calculate_information_coefficient growthSeries4 growthSeries4 .pearson).ic = some 1
    ∧ ic_t_stat_enc 1 (calculate_information_coefficient growthSeries4 growthSeries4 .pearson).n
      = none := by
  refine ⟨?_, ?_, ?_⟩
  · exact information_coefficient_amended.1 [some 1, none] [none, some 2] .spearman (by decide)
  · exact (information_coefficient_amended.2 growthSeries4 (by decide)
      (by with_unfolding_all decide)).1
  · exact (information_coefficient_amended.2 growthSeries4 (by decide)
      (by with_unfolding_all decide)).2

/-! Lemmas and theorems for the lag scan, CAPM and the t-test. -/

theorem granger_rows_eq (x y : Series) (L : ℕ)
    (hge : L + 20 ≤ (pairClean x y).length) :
    granger_causality_test x y L = .rows ((List.range L).filterMap (fun k =>
      if (laggedPairs (pairClean x y) (k + 1)).length < 20 then none
      else some { lag := k + 1
                  corrNum := pearsonNum (laggedPairs (pairClean x y) (k + 1))
                  corrDenSq := pearsonDenSq (laggedPairs (pairClean x y) (k + 1))
                  n := (laggedPairs (pairClean x y) (k + 1)).length })) := by
  rw [granger_causality_test.eq_def, if_neg (by omega)]

/-- Claim C7: the lag scan short-circuits to the single insufficient-data
placeholder when the paired sample is shorter than `max_lag + 20` (no per-lag
rows at all); otherwise every reported row's aligned sample has at least 20
observations and any lag whose aligned sample is shorter than 20 produces no
row (silently skipped). -/
theorem granger_scan_guards (x y : Series) (L : ℕ) :
    ((pairClean x y).length < L + 20 →
      granger_causality_test x y L = .insufficientData)
    ∧ (L + 20 ≤ (pairClean x y).length →
        ∃ l, granger_causality_test x y L = .rows l
          ∧ (∀ r ∈ l, 1 ≤ r.lag ∧ r.lag ≤ L
              ∧ 20 ≤ (laggedPairs (pairClean x y) r.lag).length
              ∧ r.n = (laggedPairs (pairClean x y) r.lag).length)
          ∧ (∀ lag, (laggedPairs (pairClean x y) lag).length < 20 →
              ∀ r ∈ l, r.lag ≠ lag)) := by
  constructor
  · intro hlt
    rw [granger_causality_test.eq_def, if_pos hlt]
  · intro hge
    refine ⟨_, granger_rows_eq x y L hge, ?_, ?_⟩
    · intro r hr
      obtain ⟨k, hk, hfk⟩ := List.mem_filterMap.mp hr
      have hkL := List.mem_range.mp hk
      by_cases hlen : (laggedPairs (pairClean x y) (k + 1)).length < 20
      · rw [if_pos hlen] at hfk
        exact Option.noConfusion hfk
      · rw [if_neg hlen] at hfk
        obtain rfl := Option.some.inj hfk
        dsimp only
        exact ⟨by omega, by omega, by omega, rfl⟩
    · intro lag hlag r hr
      obtain ⟨k, hk, hfk⟩ := List.mem_filterMap.mp hr
      by_cases hlen : (laggedPairs (pairClean x y) (k + 1)).length < 20
      · rw [if_pos hlen] at hfk
        exact Option.noConfusion hfk
      · rw [if_neg hlen] at hfk
        obtain rfl := Option.some.inj hfk
        intro hEq
        have hEq2 : k + 1 = lag := hEq
        subst hEq2
        omega

/-- Claim C7 witness: a one-row pair short-circuits; a 25-row pair with
`max_lag = 1` yields per-lag rows, each with at least 20 aligned points. -/
theorem granger_scan_guards_witness :
    granger_causality_test [some 1] [some 1] 10 = .insufficientData
    ∧ ∃ l, granger_causality_test longSeries25 longSeries25 1 = .rows l
      ∧ (∀ r ∈ l, 1 ≤ r.lag ∧ r.lag ≤ 1
          ∧ 20 ≤ (laggedPairs (pairClean longSeries25 longSeries25) r.lag).length
          ∧ r.n = (laggedPairs (pairClean longSeries25 longSeries25) r.lag).length)
      ∧ (∀ lag, (laggedPairs (pairClean longSeries25 longSeries25) lag).length < 20 →
          ∀ r ∈ l, r.lag ≠ lag) := by
  constructor
  · exact (granger_scan_guards [some 1] [some 1] 10).1 (by decide)
  · exact (granger_scan_guards longSeries25 longSeries25 1).2 (by decide)

set_option maxRecDepth 10000 in
/-- Claim C8, counterexample: for `stock = market + 3` over `market = 1..10`
the per-period (raw) alpha is 3, but the returned dictionary's entries are the
annualized alpha `756 = 3·252`, the beta `1`, the annualized mean return
`2142` and the sample size — the raw-period alpha is reported in no field, so
"the result reports both raw-period and annualized alpha and mean return" is
false on the code. -/
theorem capm_reported_fields_cex :
    capm_analysis stockReturns10 marketReturns10
      = .ok { alpha := 756, beta := 1, mean_return := 2142, sample_size := 10 }
    ∧ capm_alpha_raw stockReturns10 marketReturns10 = 3
    ∧ ((3 : ℚ) ≠ 756 ∧ (3 : ℚ) ≠ 1 ∧ (3 : ℚ) ≠ 2142 ∧ (3 : ℚ) ≠ 10) := by
  with_unfolding_all decide

/-- Claim C8 as amended: CAPM attribution with fewer than 10 paired non-null
observations is the explicit insufficient-data result (not an exception);
otherwise beta is `cov/var` with beta = 0 on zero market variance, alpha is
`mean(strategy) - beta·mean(market)`, and the result reports the ANNUALIZED
(×252) alpha and mean return (the raw-period values are intermediates only),
the beta and the sample size. -/
theorem capm_amended (sr mr : Series) :
    ((pairClean sr mr).length < 10 → capm_analysis sr mr = .insufficientData)
    ∧ (10 ≤ (pairClean sr mr).length →
        capm_analysis sr mr = .ok
          { alpha := (qmean ((pairClean sr mr).map Prod.fst)
              - capm_beta sr mr * qmean ((pairClean sr mr).map Prod.snd)) * 252
            beta := if sumCenteredSq ((pairClean sr mr).map Prod.snd)
                  / (((pairClean sr mr).length : ℚ) - 1) = 0 then 0
              else sampleCov (pairClean sr mr)
                  / (sumCenteredSq ((pairClean sr mr).map Prod.snd)
                    / (((pairClean sr mr).length : ℚ) - 1))
            mean_return := qmean ((pairClean sr mr).map Prod.fst) * 252
            sample_size := (pairClean sr mr).length }) := by
  constructor
  · intro hlt
    rw [capm_analysis.eq_def, if_pos hlt]
  · intro hge
    rw [capm_analysis.eq_def, if_neg (by omega)]
    have hbeta : capm_beta sr mr
        = if sumCenteredSq ((pairClean sr mr).map Prod.snd)
              / (((pairClean sr mr).length : ℚ) - 1) = 0 then 0
          else sampleCov (pairClean sr mr)
              / (sumCenteredSq ((pairClean sr mr).map Prod.snd)
                / (((pairClean sr mr).length : ℚ) - 1)) := by
      rw [capm_beta]
      by_cases hv : sumCenteredSq ((pairClean sr mr).map Prod.snd)
          / (((pairClean sr mr).length : ℚ) - 1) = 0
      · simp [hv]
      · simp [hv]
    rw [capm_alpha_raw, hbeta]

/-- Claim C8 witness: the amended result at `stock = market + 3`,
`market = 1..10`, and the insufficient-data branch at a single pair. -/
theorem capm_amended_witness :
    capm_analysis [some 1] [some 1] = .insufficientData
    ∧ capm_analysis stockReturns10 marketReturns10 = .ok
        { alpha := (qmean ((pairClean stockReturns10 marketReturns10).map Prod.fst)
            - capm_beta stockReturns10 marketReturns10
              * qmean ((pairClean stockReturns10 marketReturns10).map Prod.snd)) * 252
          beta := if sumCenteredSq ((pairClean stockReturns10 marketReturns10).map Prod.snd)
                / (((pairClean stockReturns10 marketReturns10).length : ℚ) - 1) = 0 then 0
            else sampleCov (pairClean stockReturns10 marketReturns10)
                / (sumCenteredSq ((pairClean stockReturns10 marketReturns10).map Prod.snd)
                  / (((pairClean stockReturns10 marketReturns10).length : ℚ) - 1))
          mean_return := qmean ((pairClean stockReturns10 marketReturns10).map Prod.fst) * 252
          sample_size := (pairClean stockReturns10 marketReturns10).length } := by
  constructor
  · exact (capm_amended [some 1] [some 1]).1 (by decide)
  · exact (capm_amended stockReturns10 marketReturns10).2 (by decide)

/-- Claim C9: the two-sample (Welch) t-test is antisymmetric: swapping the
groups negates `mean_diff` and the t numerator while preserving the squared
t denominator and the Welch degrees of freedom — hence the t statistic flips
sign with the same magnitude (`t² = tNum²/tDenSq` invariant), and the
two-sided p-value, a fixed function of `t²` and the degrees of freedom, is
identical for both orderings. -/
theorem ttest_antisymmetry (g1 g2 : Series)
    (h1 : 2 ≤ (g1.filterMap id).length) (h2 : 2 ≤ (g2.filterMap id).length) :
    ∃ r12 r21,
      ttest_two_groups g1 g2 = .ok r12 ∧ ttest_two_groups g2 g1 = .ok r21
      ∧ r12.mean_diff = -r21.mean_diff
      ∧ r12.tNum = -r21.tNum
      ∧ r12.tDenSq = r21.tDenSq
      ∧ r12.dfW = r21.dfW := by
  refine ⟨{ tNum := cleanMean g1 - cleanMean g2
            tDenSq := welchSE g1 + welchSE g2
            dfW := (welchSE g1 + welchSE g2) ^ 2
              / (welchSE g1 ^ 2 / (((g1.filterMap id).length : ℚ) - 1)
                + welchSE g2 ^ 2 / (((g2.filterMap id).length : ℚ) - 1))
            n1 := (g1.filterMap id).length
            n2 := (g2.filterMap id).length
            mean1 := cleanMean g1
            mean2 := cleanMean g2
            mean_diff := cleanMean g1 - cleanMean g2
            smallSampleWarning := (g1.filterMap id).length < MIN_SAMPLE_SIZE
              ∨ (g2.filterMap id).length < MIN_SAMPLE_SIZE },
          { tNum := cleanMean g2 - cleanMean g1
            tDenSq := welchSE g2 + welchSE g1
            dfW := (welchSE g2 + welchSE g1) ^ 2
              / (welchSE g2 ^ 2 / (((g2.filterMap id).length : ℚ) - 1)
                + welchSE g1 ^ 2 / (((g1.filterMap id).length : ℚ) - 1))
            n1 := (g2.filterMap id).length
            n2 := (g1.filterMap id).length
            mean1 := cleanMean g2
            mean2 := cleanMean g1
            mean_diff := cleanMean g2 - cleanMean g1
            smallSampleWarning := (g2.filterMap id).length < MIN_SAMPLE_SIZE
              ∨ (g1.filterMap id).length < MIN_SAMPLE_SIZE },
          ?_, ?_, ?_, ?_, ?_, ?_⟩
  · rw [ttest_two_groups.eq_def, if_neg (by omega)]
  · rw [ttest_two_groups.eq_def, if_neg (by omega)]
  · dsimp only
    ring
  · dsimp only
    ring
  · dsimp only
    ring
  · dsimp only
    ring

/-- Claim C9 witness at groups `[1,2,4,8]` and `[1,1,1,1]`. -/
theorem ttest_antisymmetry_witness :
    ∃ r12 r21,
      ttest_two_groups growthSeries4 constSeries4 = .ok r12
      ∧ ttest_two_groups constSeries4 growthSeries4 = .ok r21
      ∧ r12.mean_diff = -r21.mean_diff
      ∧ r12.tNum = -r21.tNum
      ∧ r12.tDenSq = r21.tDenSq
      ∧ r12.dfW = r21.dfW :=
  ttest_antisymmetry growthSeries4 constSeries4 (by decide) (by decide)

/-! Theorems about the composite score and its quintile backtest. -/

theorem sharpeEncOf_none_left (m : Option ℚ) (ppy : ℕ) : sharpeEncOf none m ppy = none := rfl

theorem sharpeEncOf_zero (m : Option ℚ) (ppy : ℕ) : sharpeEncOf (some 0) m ppy = none := by
  cases m <;> simp [sharpeEncOf]

theorem sharpeEncOf_pos (s mv : ℚ) (ppy : ℕ) (hs : 0 < s) :
    sharpeEncOf (some s) (some mv) ppy = some (signedSq (mv * ppy) / (s * ppy)) := by
  simp [sharpeEncOf, hs]

set_option maxRecDepth 20000 in
/-- Claim C1, counterexample: a panel whose only column is a PE percentile
with a null row.  The claim's fill-with-0 policy predicts a composite score of
`0 - 0/100 = 0`; the code fills the missing percentile with the neutral 50 and
yields `0 - (50/100) = -1/2`. -/
theorem composite_fill_cex :
    (build_composite_score panelPeOnly true).composite_score = some [some (-(1/2))]
    ∧ (build_composite_score_spec panelPeOnly true).composite_score = some [some 0]
    ∧ (build_composite_score panelPeOnly true).composite_score
      ≠ (build_composite_score_spec panelPeOnly true).composite_score := by
  with_unfolding_all decide

/-- Claim C1 as amended: every row's composite score is
`z(foreign_net_buy) [+ z(self_net_buy) if enabled] - mean over the PRESENT
PE/PB percentile columns of percentile/100`, where a missing z-score value or
column contributes 0 but a missing valuation percentile VALUE is filled with
the neutral 50 (not 0) before rescaling, and an absent percentile COLUMN is
dropped from the average (`compositeAt` spells out this formula over the
normalized panel). -/
theorem composite_fill_amended (p : Panel) (b : Bool) (i : ℕ) (hi : i < p.n) :
    ∃ col, (build_composite_score p b).composite_score = some col
      ∧ getN col i = some (compositeAt (normalize_all_signals p) b i) := by
  refine ⟨_, rfl, ?_⟩
  exact getN_map_range _ _ _ hi

set_option maxRecDepth 20000 in
/-- Claim C1 witness: the formula at row 0 of a small panel carrying raw
foreign flows, close prices and PE. -/
theorem composite_fill_amended_witness :
    ∃ col, (build_composite_score panelSmall true).composite_score = some col
      ∧ getN col 0 = some (compositeAt (normalize_all_signals panelSmall) true 0) :=
  composite_fill_amended panelSmall true 0 (by decide)

/-- Claim C10: for every input panel — including one missing every signal and
valuation column — `build_composite_score` attaches a `composite_score`
column of full length whose every entry is non-null: z-scores are filled with
0 and valuation percentiles with the neutral 50 before combining. -/
theorem composite_never_null (p : Panel) (b : Bool) :
    ∃ col, (build_composite_score p b).composite_score = some col
      ∧ col.length = p.n
      ∧ ∀ o ∈ col, o.isSome := by
  refine ⟨_, rfl, by simp, ?_⟩
  intro o ho
  obtain ⟨j, hj, rfl⟩ := List.mem_map.mp ho
  rfl

/-- Claim C10 witness: the empty-column panel (row count 1, no columns). -/
theorem composite_never_null_witness :
    ∃ col, (build_composite_score { n := 1 } false).composite_score = some col
      ∧ col.length = ({ n := 1 } : Panel).n
      ∧ ∀ o ∈ col, o.isSome :=
  composite_never_null { n := 1 } false

set_option maxRecDepth 100000 in
/-- Claim C2, counterexample: on a concrete 20-row panel the code's long-short
volatility is `sqrt(std_Q5² + std_Q1²)/sqrt(2)` — squared: `(5/32 =
(var5+var1)/2` with `var5 = 1/4`, `var1 = 1/16`) — while the claim's formula
`sqrt((std_Q5² + std_Q1²)/2)/sqrt(2)` squares to `(var5+var1)/4 = 5/64`; the
two differ by a factor `sqrt(2)`. -/
theorem quintile_backtest_vol_cex :
    quintile_backtest panelBacktest 5
      = .ok { strategy_mean := some (3/8), strategy_stdSq := some (5/32),
              sharpe_enc := some 45, sample_size := 15 }
    ∧ strategy_stdSq_spec panelBacktest 5 = some (5/64)
    ∧ ((5 : ℚ)/32 ≠ 5/64) := by
  with_unfolding_all decide

/-- Claim C2 as amended: in the quintile backtest the long-short volatility is
`sqrt(std_Q5² + std_Q1²)/sqrt(2)` (equivalently `sqrt((std_Q5² + std_Q1²)/2)`,
i.e. its square is `(var_Q5 + var_Q1)/2` — WITHOUT the claim's additional
`/sqrt(2)`); the annualized Sharpe is `(spread_mean · ppy)/(spread_std ·
sqrt(ppy))` with `ppy = 252 // horizon` (in the signed-square encoding); and
the Sharpe is null (NaN) when the spread standard deviation is zero or
undefined. -/
theorem quintile_backtest_amended (p : Panel) (h : ℕ) :
    ∀ r, quintile_backtest p h = .ok r →
      (r.strategy_stdSq = (match sampleVarOpt (btGroupReturns p h ("Q5")),
          sampleVarOpt (btGroupReturns p h ("Q1")) with
        | some a, some b => some ((a + b) / 2)
        | _, _ => none))
      ∧ r.sharpe_enc = sharpeEncOf r.strategy_stdSq r.strategy_mean (252 / h)
      ∧ (r.strategy_stdSq = some 0 → r.sharpe_enc = none)
      ∧ (r.strategy_stdSq = none → r.sharpe_enc = none)
      ∧ (∀ sv mv, r.strategy_stdSq = some sv → 0 < sv → r.strategy_mean = some mv →
          r.sharpe_enc = some (signedSq (mv * ((252 / h : ℕ) : ℚ))
            / (sv * ((252 / h : ℕ) : ℚ)))) := by
  intro r hok
  rw [quintile_backtest.eq_def] at hok
  by_cases hc : p.composite_score.isNone = true
  · rw [if_pos hc] at hok
    exact BacktestResult.noConfusion hok
  · rw [if_neg hc] at hok
    by_cases hcl : p.close.isNone = true
    · rw [if_pos hcl] at hok
      exact BacktestResult.noConfusion hok
    · rw [if_neg hcl] at hok
      obtain rfl := BacktestResult.ok.inj hok
      refine ⟨rfl, rfl, ?_, ?_, ?_⟩
      · intro h0
        dsimp only at h0 ⊢
        rw [h0]
        exact sharpeEncOf_zero _ _
      · intro h0
        dsimp only at h0 ⊢
        rw [h0]
        rfl
      · intro sv mv h0 hsv hm
        dsimp only at h0 hm ⊢
        rw [h0, hm]
        exact sharpeEncOf_pos sv mv _ hsv

set_option maxRecDepth 100000 in
/-- Claim C2 witness: the Sharpe formula instantiated on the concrete 20-row
panel (`spread_mean = 3/8`, squared volatility `5/32`, `ppy = 252 // 5 = 50`). -/
theorem quintile_backtest_amended_witness :
    ({ strategy_mean := some (3/8), strategy_stdSq := some (5/32), sharpe_enc := some 45,
       sample_size := 15 } : BacktestRecord).sharpe_enc
      = some (signedSq ((3/8) * ((252 / 5 : ℕ) : ℚ)) / ((5/32) * ((252 / 5 : ℕ) : ℚ))) := by
  exact (quintile_backtest_amended panelBacktest 5 _ (by with_unfolding_all decide)).2.2.2.2
    (5/32) (3/8) rfl (by norm_num) rfl

end SteelFlow
